import Mathlib

/-!
Verification of the express-idempotency middleware.

The store (src/defaults/inMemoryDataAdapter.ts) is embedded from its
source: a map from idempotency keys to resources, modelled as an
association list whose observable interface is findByIdempotencyKey.
The coordinator (IdempotencyService.provideMiddlewareFunction) and the
header filters are not part of the source tree; they are modelled from
the specification, as marked on each definition.
-/

namespace ExpressIdempotency

/-- A request snapshot: method, url, headers, body and query, as stored
in an idempotency resource and as carried by an inbound request. -/
structure IdempotencyRequest where
  method : String
  url : String
  headers : List (String × String)
  body : String
  query : List (String × String)
deriving DecidableEq

/-- A captured response. statusCode is optional: a corrupted record may
lack it (undefined in the source language). -/
structure IdempotencyResponse where
  statusCode : Option Nat
  headers : List (String × String)
  body : String
deriving DecidableEq

/-- The unit of persisted state, one per idempotency key. response is
absent while the operation is in flight. -/
structure IdempotencyResource where
  idempotencyKey : String
  request : IdempotencyRequest
  response : Option IdempotencyResponse
deriving DecidableEq

/-- The state of InMemoryDataAdapter: a Map from keys to resources,
modelled as an association list looked up front to back. -/
abbrev Store := List (String × IdempotencyResource)

/-- InMemoryDataAdapter.findByIdempotencyKey: Map.get, null when absent. -/
def findByIdempotencyKey (s : Store) (key : String) :
    Option IdempotencyResource :=
  (s.find? (fun p => p.1 == key)).map (fun p => p.2)

/-- InMemoryDataAdapter.create: throws Duplicate when the key is present,
otherwise Map.set. -/
def create (s : Store) (r : IdempotencyResource) : Except String Store :=
  if (findByIdempotencyKey s r.idempotencyKey).isSome then
    Except.error "Duplicate"
  else
    Except.ok ((r.idempotencyKey, r) :: s)

/-- InMemoryDataAdapter.delete: Map.delete, a no-op on an absent key. -/
def delete (s : Store) (key : String) : Store :=
  s.filter (fun p => !(p.1 == key))

/-- InMemoryDataAdapter.update: unconditional Map.set, replacing any
previous binding of the key whole. -/
def update (s : Store) (r : IdempotencyResource) : Store :=
  (r.idempotencyKey, r) :: delete s r.idempotencyKey

/-- One call against the adapter, for stating trace properties. -/
inductive StoreOp where
  | createOp (r : IdempotencyResource)
  | updateOp (r : IdempotencyResource)
  | deleteOp (key : String)
deriving DecidableEq

/-- The key an operation addresses. -/
def StoreOp.key : StoreOp → String
  | .createOp r => r.idempotencyKey
  | .updateOp r => r.idempotencyKey
  | .deleteOp k => k

/-- The state after one adapter call; a failing create leaves the map
untouched (the source throws before Map.set). -/
def applyOp (s : Store) (op : StoreOp) : Store :=
  match op with
  | .createOp r =>
    match create s r with
    | .ok s' => s'
    | .error _ => s
  | .updateOp r => update s r
  | .deleteOp k => delete s k

/-- The state after a sequence of adapter calls. -/
def runOps (s : Store) (ops : List StoreOp) : Store :=
  ops.foldl applyOp s

-- Basic lemmas about lookup against filter and cons.

theorem find_cons_self (s : Store) (k : String) (r : IdempotencyResource) :
    findByIdempotencyKey ((k, r) :: s) k = some r := by
  simp [findByIdempotencyKey, List.find?_cons_of_pos]

theorem find_cons_ne (s : Store) (k k' : String) (r : IdempotencyResource)
    (h : k ≠ k') :
    findByIdempotencyKey ((k, r) :: s) k' = findByIdempotencyKey s k' := by
  have hb : ((k, r).1 == k') = false := beq_eq_false_iff_ne.mpr h
  simp [findByIdempotencyKey, List.find?_cons, hb]

theorem find_delete_self (s : Store) (k : String) :
    findByIdempotencyKey (delete s k) k = none := by
  simp only [findByIdempotencyKey, delete, Option.map_eq_none']
  rw [List.find?_eq_none]
  intro p hp
  rcases List.mem_filter.mp hp with ⟨_, hkeep⟩
  by_cases hc : p.1 = k
  · simp [hc] at hkeep
  · simp [hc]

theorem find_delete_ne (s : Store) (k k' : String) (h : k ≠ k') :
    findByIdempotencyKey (delete s k) k' = findByIdempotencyKey s k' := by
  simp only [findByIdempotencyKey, delete]
  induction s with
  | nil => rfl
  | cons a t ih =>
    by_cases hk : a.1 = k
    · have h1 : ¬((fun q : String × IdempotencyResource => !(q.1 == k)) a = true) := by
        simp [hk]
      have h2 : ¬((fun q : String × IdempotencyResource => q.1 == k') a = true) := by
        simp only [hk]; simp [h]
      rw [List.filter_cons_of_neg (p := fun q : String × IdempotencyResource => !(q.1 == k)) h1, ih,
        List.find?_cons_of_neg (p := fun q : String × IdempotencyResource => q.1 == k') t h2]
    · have h1 : (fun q : String × IdempotencyResource => !(q.1 == k)) a = true := by
        simp [hk]
      by_cases hk' : a.1 = k'
      · have h2 : (fun q : String × IdempotencyResource => q.1 == k') a = true := by
          simp [hk']
        rw [List.filter_cons_of_pos (p := fun q : String × IdempotencyResource => !(q.1 == k)) h1,
          List.find?_cons_of_pos (p := fun q : String × IdempotencyResource => q.1 == k')
            (List.filter (fun q => !(q.1 == k)) t) h2,
          List.find?_cons_of_pos (p := fun q : String × IdempotencyResource => q.1 == k') t h2]
      · have h2 : ¬((fun q : String × IdempotencyResource => q.1 == k') a = true) := by
          simp [hk']
        rw [List.filter_cons_of_pos (p := fun q : String × IdempotencyResource => !(q.1 == k)) h1,
          List.find?_cons_of_neg (p := fun q : String × IdempotencyResource => q.1 == k')
            (List.filter (fun q => !(q.1 == k)) t) h2,
          List.find?_cons_of_neg (p := fun q : String × IdempotencyResource => q.1 == k') t h2, ih]

theorem find_update_self (s : Store) (r : IdempotencyResource) :
    findByIdempotencyKey (update s r) r.idempotencyKey = some r := by
  simp [update, find_cons_self]

theorem delete_idem (s : Store) (k : String) :
    delete (delete s k) k = delete s k := by
  simp [delete, List.filter_filter]

/-- Lowercasing of a header name, written over the character list so
that it evaluates by kernel reduction. -/
def lowerName (s : String) : String :=
  String.mk (s.data.map Char.toLower)

/-- Whether the name s starts with the text q, written over the
character lists so that it evaluates by kernel reduction. -/
def nameStartsWith (s q : String) : Bool :=
  List.isPrefixOf q.data s.data

/-- Modelled from the spec: the exact-match denylist of sensitive request
header names, removed case-insensitively before a snapshot is stored.
The IdempotencyService source is absent from the tree. -/
def sensitiveExactHeaders : List String :=
  ["authorization", "proxy-authorization", "cookie", "set-cookie",
   "x-auth-token", "x-csrf-token", "x-xsrf-token", "x-api-key"]

/-- Modelled from the spec: the case-insensitive name starts that also
mark a request header as sensitive. -/
def sensitiveHeaderStarts : List String :=
  ["x-auth-", "x-token-", "x-secret-", "x-key-"]

/-- Modelled from the spec: a request header is sensitive when its
lowercased name is in the denylist or starts with a denylisted start. -/
def isSensitiveRequestHeader (name : String) : Bool :=
  sensitiveExactHeaders.contains (lowerName name) ||
    sensitiveHeaderStarts.any (fun q => nameStartsWith (lowerName name) q)

/-- Modelled from the spec: request-header redaction applied before a
snapshot is stored; non-sensitive headers pass through verbatim. -/
def filterSensitiveHeaders (hs : List (String × String)) :
    List (String × String) :=
  hs.filter (fun h => !(isSensitiveRequestHeader h.1))

/-- Modelled from the spec: the response-header whitelist, matched
case-insensitively — content headers, CORS allow headers and location. -/
def isWhitelistedResponseHeader (name : String) : Bool :=
  nameStartsWith (lowerName name) "content-" ||
    nameStartsWith (lowerName name) "access-control-allow-" ||
    lowerName name == "location"

/-- Modelled from the spec: response-header restriction applied before
caching and reapplied identically on replay. -/
def filterResponseHeaders (hs : List (String × String)) :
    List (String × String) :=
  hs.filter (fun h => isWhitelistedResponseHeader h.1)

/-- Modelled from the spec: key extraction from the configured header,
matched case-insensitively as the host framework does. -/
def extractIdempotencyKeyFromReq (keyHeader : String)
    (req : IdempotencyRequest) : Option String :=
  (req.headers.find? (fun h => lowerName h.1 == lowerName keyHeader)).map
    (fun h => h.2)

/-- Modelled from the spec: DefaultIntentValidator.shouldProcess always
proceeds once a key is present. -/
def shouldProcess (_ : IdempotencyRequest) : Bool :=
  true

/-- Modelled from the spec: SuccessfulResponseValidator accepts only
success-class status codes for persistence. -/
def isValidForPersistence (statusCode : Nat) : Bool :=
  decide (200 ≤ statusCode ∧ statusCode < 300)

/-- Modelled from the spec: a resource is Pending exactly when its
response is absent or its stored statusCode is undefined. -/
def isPending (r : IdempotencyResource) : Bool :=
  match r.response with
  | none => true
  | some resp => resp.statusCode.isNone

/-- Modelled from the spec: the conflict error handed to the continuation
while a previous request with the key is Pending. -/
def conflictErrorMessage : String :=
  "A previous request is still in progress"

/-- Modelled from the spec: the misuse error handed to the continuation
when a Completed resource does not match the request, distinct from the
conflict error. -/
def misuseErrorMessage : String :=
  "Misuse of the idempotency key: the request does not match"

/-- Modelled from the spec: the request snapshot stored on a cache miss,
with sensitive headers removed and everything else kept. -/
def requestSnapshot (req : IdempotencyRequest) : IdempotencyRequest :=
  { req with headers := filterSensitiveHeaders req.headers }

/-- Modelled from the spec: the Pending placeholder created on a miss. -/
def pendingResource (key : String) (req : IdempotencyRequest) :
    IdempotencyResource :=
  { idempotencyKey := key, request := requestSnapshot req, response := none }

/-- How one middleware invocation resolved. -/
inductive Outcome where
  | passThrough
  | proceed
  | conflict
  | misuse
  | hit (resp : IdempotencyResponse)
deriving DecidableEq

/-- The observable result of one middleware invocation: how it resolved,
the store afterwards, the per-request hit flag later read by isHit, and
what was handed to the continuation (none for success). -/
structure MiddlewareResult where
  outcome : Outcome
  store : Store
  hit : Bool
  nextError : Option String
deriving DecidableEq

/-- Modelled from the spec: IdempotencyService.provideMiddlewareFunction,
the per-request decision of the coordinator. The IdempotencyService
source is absent from the tree; steps follow the specified algorithm:
absent key passes through, a miss creates a Pending placeholder from the
redacted snapshot (an atomic-create failure counts as Pending), a
Pending resource yields the conflict error, and a Completed resource is
replayed only when method and url both match, else the misuse error. -/
def provideMiddlewareFunction (keyHeader : String) (s : Store)
    (req : IdempotencyRequest) : MiddlewareResult :=
  match extractIdempotencyKeyFromReq keyHeader req with
  | none => ⟨.passThrough, s, false, none⟩
  | some key =>
    if shouldProcess req then
      match findByIdempotencyKey s key with
      | none =>
        match create s (pendingResource key req) with
        | .ok s' => ⟨.proceed, s', false, none⟩
        | .error _ => ⟨.conflict, s, false, some conflictErrorMessage⟩
      | some r =>
        match r.response with
        | none => ⟨.conflict, s, false, some conflictErrorMessage⟩
        | some resp =>
          match resp.statusCode with
          | none => ⟨.conflict, s, false, some conflictErrorMessage⟩
          | some code =>
            if r.request.method == req.method && r.request.url == req.url
            then
              ⟨.hit ⟨some code, filterResponseHeaders resp.headers,
                 resp.body⟩, s, true, none⟩
            else
              ⟨.misuse, s, false, some misuseErrorMessage⟩
    else
      ⟨.passThrough, s, false, none⟩

/-- Modelled from the spec: the response capture hook installed on the
single request that created the Pending placeholder. On finalization it
persists a Completed resource with the whitelisted headers when the
response validator accepts the status, else deletes the placeholder. -/
def hookCapture (s : Store) (r : IdempotencyResource) (statusCode : Nat)
    (headers : List (String × String)) (body : String) : Store :=
  if isValidForPersistence statusCode then
    let captured : IdempotencyResponse :=
      { statusCode := some statusCode,
        headers := filterResponseHeaders headers, body := body }
    update s { r with response := some captured }
  else
    delete s r.idempotencyKey

-- Shared helper lemmas.

theorem applyOp_frame (s : Store) (op : StoreOp) (K : String)
    (h : op.key ≠ K) :
    findByIdempotencyKey (applyOp s op) K = findByIdempotencyKey s K := by
  cases op with
  | createOp r =>
    simp only [StoreOp.key] at h
    simp only [applyOp]
    cases hc : create s r with
    | ok s' =>
      unfold create at hc
      by_cases hf : (findByIdempotencyKey s r.idempotencyKey).isSome
      · simp [hf] at hc
      · simp only [hf, if_neg, Bool.false_eq_true, not_false_eq_true,
          if_false, Except.ok.injEq] at hc
        rw [← hc]
        exact find_cons_ne s r.idempotencyKey K r h
    | error e => rfl
  | updateOp r =>
    simp only [StoreOp.key] at h
    simp only [applyOp, update]
    rw [find_cons_ne _ _ _ _ h, find_delete_ne _ _ _ h]
  | deleteOp k =>
    simp only [StoreOp.key] at h
    exact find_delete_ne s k K h

theorem runOps_frame : ∀ (ops : List StoreOp) (s : Store) (K : String),
    (∀ op ∈ ops, op.key ≠ K) →
    findByIdempotencyKey (runOps s ops) K = findByIdempotencyKey s K := by
  intro ops
  induction ops with
  | nil => intro s K _; rfl
  | cons op t ih =>
    intro s K h
    have h1 : op.key ≠ K := h op (List.mem_cons_self op t)
    have h2 : ∀ o ∈ t, StoreOp.key o ≠ K :=
      fun o ho => h o (List.mem_cons_of_mem op ho)
    simp only [runOps, List.foldl_cons]
    have ht : List.foldl applyOp (applyOp s op) t = runOps (applyOp s op) t :=
      rfl
    rw [ht, ih (applyOp s op) K h2, applyOp_frame s op K h1]

theorem create_ok_of_absent (s : Store) (r : IdempotencyResource)
    (h : findByIdempotencyKey s r.idempotencyKey = none) :
    create s r = Except.ok ((r.idempotencyKey, r) :: s) := by
  simp [create, h]

-- Claim theorems for the in-memory data adapter.

/-- C4: create fails with the Duplicate error exactly when a resource is
already stored under the key, leaving the store untouched in that case;
on an absent key it succeeds and stores the resource under its key. -/
theorem C4_create_atomic_guard (s : Store) (r : IdempotencyResource) :
    (create s r = Except.error "Duplicate" ↔
      (findByIdempotencyKey s r.idempotencyKey).isSome = true) ∧
    applyOp s (StoreOp.createOp r) =
      (if (findByIdempotencyKey s r.idempotencyKey).isSome then s
        else (r.idempotencyKey, r) :: s) ∧
    (create s r = Except.ok ((r.idempotencyKey, r) :: s) ↔
      findByIdempotencyKey s r.idempotencyKey = none) ∧
    findByIdempotencyKey ((r.idempotencyKey, r) :: s) r.idempotencyKey =
      some r := by
  refine ⟨?_, ?_, ?_, find_cons_self s r.idempotencyKey r⟩
  · by_cases hf : (findByIdempotencyKey s r.idempotencyKey).isSome
    · simp [create, hf]
    · simp [create, hf]
  · by_cases hf : (findByIdempotencyKey s r.idempotencyKey).isSome
    · simp [applyOp, create, hf]
    · simp [applyOp, create, hf]
  · by_cases hf : (findByIdempotencyKey s r.idempotencyKey).isSome
    · simp only [create, hf, if_true]
      constructor
      · intro hcontra; cases hcontra
      · intro hnone; rw [hnone] at hf; cases hf
    · simp only [create, hf, Bool.false_eq_true, if_false]
      constructor
      · intro _; exact Option.not_isSome_iff_eq_none.mp (by simp [hf])
      · intro _; trivial

/-- C7: for every store state, delete succeeds — also when the key is
absent, since the second of two deletes in a row acts on a store that
lacks the key yet changes nothing — the key reads absent afterwards,
and deleting twice in a row equals deleting once. -/
theorem C7_delete_idempotent (s : Store) (k : String) :
    findByIdempotencyKey (delete s k) k = none ∧
    delete (delete s k) k = delete s k :=
  ⟨find_delete_self s k, delete_idem s k⟩

/-- C8: a successful create is immediately observable through
findByIdempotencyKey, and a key never created — starting from the empty
store, or deleted and then not targeted again — reads as absent. -/
theorem C8_find_after_create_and_absent (s : Store)
    (r : IdempotencyResource) (K : String) (ops : List StoreOp)
    (h1 : findByIdempotencyKey s r.idempotencyKey = none)
    (h2 : ∀ op ∈ ops, op.key ≠ K) :
    (∃ s', create s r = Except.ok s' ∧
      findByIdempotencyKey s' r.idempotencyKey = some r) ∧
    findByIdempotencyKey (runOps [] ops) K = none ∧
    findByIdempotencyKey (runOps (delete s K) ops) K = none := by
  refine ⟨⟨(r.idempotencyKey, r) :: s, create_ok_of_absent s r h1,
    find_cons_self s r.idempotencyKey r⟩, ?_, ?_⟩
  · rw [runOps_frame ops [] K h2]; rfl
  · rw [runOps_frame ops (delete s K) K h2]
    exact find_delete_self s K

/-- C8 witness at the empty store with one operation on another key. -/
theorem C8_find_after_create_and_absent_witness :
    (∃ s', create []
        ⟨"k1", ⟨"POST", "https://x", [], "", []⟩, none⟩ = Except.ok s' ∧
      findByIdempotencyKey s'
        (IdempotencyResource.idempotencyKey
          ⟨"k1", ⟨"POST", "https://x", [], "", []⟩, none⟩) =
        some ⟨"k1", ⟨"POST", "https://x", [], "", []⟩, none⟩) ∧
    findByIdempotencyKey (runOps [] [StoreOp.deleteOp "k1"]) "k2" = none ∧
    findByIdempotencyKey (runOps (delete [] "k2")
      [StoreOp.deleteOp "k1"]) "k2" = none :=
  C8_find_after_create_and_absent []
    ⟨"k1", ⟨"POST", "https://x", [], "", []⟩, none⟩ "k2"
    [StoreOp.deleteOp "k1"] rfl (by decide)

/-- C9: an adapter operation addressed to one key leaves what is stored
under every other key unchanged. -/
theorem C9_cross_key_frame (s : Store) (op : StoreOp) (K2 : String)
    (h : op.key ≠ K2) :
    findByIdempotencyKey (applyOp s op) K2 = findByIdempotencyKey s K2 :=
  applyOp_frame s op K2 h

/-- C9 witness: deleting one key does not disturb another. -/
theorem C9_cross_key_frame_witness :
    findByIdempotencyKey (applyOp [] (StoreOp.deleteOp "k1")) "k2" =
      findByIdempotencyKey [] "k2" :=
  C9_cross_key_frame [] (StoreOp.deleteOp "k1") "k2" (by decide)

/-- C10: update always succeeds as a whole-resource upsert — afterwards
the key reads back exactly the given resource, even when it was absent
before, and every other key is untouched. -/
theorem C10_update_is_upsert (s : Store) (r : IdempotencyResource)
    (K' : String) (h : K' ≠ r.idempotencyKey) :
    findByIdempotencyKey (update s r) r.idempotencyKey = some r ∧
    findByIdempotencyKey (update s r) K' = findByIdempotencyKey s K' ∧
    applyOp s (StoreOp.updateOp r) = update s r := by
  refine ⟨find_update_self s r, ?_, rfl⟩
  simp only [update]
  rw [find_cons_ne _ _ _ _ (Ne.symm h), find_delete_ne _ _ _ (Ne.symm h)]

/-- C10 witness: upsert into the empty store. -/
theorem C10_update_is_upsert_witness :
    findByIdempotencyKey
        (update [] ⟨"k1", ⟨"POST", "https://x", [], "", []⟩, none⟩)
        (IdempotencyResource.idempotencyKey
          ⟨"k1", ⟨"POST", "https://x", [], "", []⟩, none⟩) =
      some ⟨"k1", ⟨"POST", "https://x", [], "", []⟩, none⟩ ∧
    findByIdempotencyKey
        (update [] ⟨"k1", ⟨"POST", "https://x", [], "", []⟩, none⟩) "k2" =
      findByIdempotencyKey [] "k2" ∧
    applyOp [] (StoreOp.updateOp
        ⟨"k1", ⟨"POST", "https://x", [], "", []⟩, none⟩) =
      update [] ⟨"k1", ⟨"POST", "https://x", [], "", []⟩, none⟩ :=
  C10_update_is_upsert [] ⟨"k1", ⟨"POST", "https://x", [], "", []⟩, none⟩
    "k2" (by decide)

-- Concrete data used by the coordinator witnesses.

/-- A request carrying the key k1 under the default key header. -/
def sampleReq : IdempotencyRequest :=
  { method := "POST", url := "https://x",
    headers := [("idempotency-key", "k1"),
      ("content-type", "application/json")],
    body := "", query := [] }

/-- A request with no idempotency key header at all. -/
def noKeyReq : IdempotencyRequest :=
  { method := "GET", url := "https://x",
    headers := [("accept", "text/plain")], body := "", query := [] }

/-- A Completed resource under k1 for a POST to one url. -/
def sampleCompleted : IdempotencyResource :=
  ⟨"k1", ⟨"POST", "https://x", [], "", []⟩, some ⟨some 200, [], "ok"⟩⟩

/-- The same key presented with a different url. -/
def mismatchReq : IdempotencyRequest :=
  { method := "POST", url := "https://y",
    headers := [("idempotency-key", "k1")], body := "", query := [] }

/-- A request whose headers mix sensitive and ordinary names. -/
def sensReq : IdempotencyRequest :=
  { method := "POST", url := "https://x",
    headers := [("idempotency-key", "k1"), ("authorization", "secret"),
      ("x-auth-custom", "secret2"), ("content-type", "application/json")],
    body := "", query := [] }

-- Claim theorems for the coordinator, modelled from the spec.

/-- C5: a request without the configured key header passes through: the
continuation gets no error, the store is left exactly as it was, and the
request is not a hit. -/
theorem C5_no_key_pass_through (kh : String) (s : Store)
    (req : IdempotencyRequest)
    (h : extractIdempotencyKeyFromReq kh req = none) :
    provideMiddlewareFunction kh s req =
      ⟨Outcome.passThrough, s, false, none⟩ := by
  simp [provideMiddlewareFunction, h]

/-- C5 witness at a concrete key-less request. -/
theorem C5_no_key_pass_through_witness :
    provideMiddlewareFunction "idempotency-key" [] noKeyReq =
      ⟨Outcome.passThrough, [], false, none⟩ :=
  C5_no_key_pass_through "idempotency-key" [] noKeyReq (by decide)

/-- C2: a stored resource that is Pending — response absent or its
statusCode undefined, whatever the other fields hold — resolves to the
conflict error handed to the continuation, never to a hit. -/
theorem C2_pending_always_conflict (kh K : String) (s : Store)
    (req : IdempotencyRequest) (r : IdempotencyResource)
    (hk : extractIdempotencyKeyFromReq kh req = some K)
    (hf : findByIdempotencyKey s K = some r)
    (hp : isPending r = true) :
    (provideMiddlewareFunction kh s req).outcome = Outcome.conflict ∧
    (provideMiddlewareFunction kh s req).nextError =
      some conflictErrorMessage ∧
    (provideMiddlewareFunction kh s req).hit = false ∧
    ∀ resp, (provideMiddlewareFunction kh s req).outcome ≠
      Outcome.hit resp := by
  cases hr : r.response with
  | none =>
    have hres : provideMiddlewareFunction kh s req =
        ⟨Outcome.conflict, s, false, some conflictErrorMessage⟩ := by
      simp [provideMiddlewareFunction, hk, hf, shouldProcess, hr]
    rw [hres]
    refine ⟨rfl, rfl, rfl, ?_⟩
    intro resp hcontra
    cases hcontra
  | some resp0 =>
    cases hsc : resp0.statusCode with
    | some c =>
      exfalso
      simp [isPending, hr, hsc] at hp
    | none =>
      have hres : provideMiddlewareFunction kh s req =
          ⟨Outcome.conflict, s, false, some conflictErrorMessage⟩ := by
        simp [provideMiddlewareFunction, hk, hf, shouldProcess, hr, hsc]
      rw [hres]
      refine ⟨rfl, rfl, rfl, ?_⟩
      intro resp hcontra
      cases hcontra

/-- C2 witness: a Pending record under k1 conflicts with a retry. -/
theorem C2_pending_always_conflict_witness :
    (provideMiddlewareFunction "idempotency-key"
        [("k1", pendingResource "k1" sampleReq)] sampleReq).outcome =
      Outcome.conflict ∧
    (provideMiddlewareFunction "idempotency-key"
        [("k1", pendingResource "k1" sampleReq)] sampleReq).nextError =
      some conflictErrorMessage ∧
    (provideMiddlewareFunction "idempotency-key"
        [("k1", pendingResource "k1" sampleReq)] sampleReq).hit = false ∧
    ∀ resp, (provideMiddlewareFunction "idempotency-key"
        [("k1", pendingResource "k1" sampleReq)] sampleReq).outcome ≠
      Outcome.hit resp :=
  C2_pending_always_conflict "idempotency-key" "k1"
    [("k1", pendingResource "k1" sampleReq)] sampleReq
    (pendingResource "k1" sampleReq) (by decide) (by decide) (by decide)

/-- C3: a Completed resource whose stored method or url differs from the
request resolves to the misuse error, which is distinct from the
conflict error; the store is untouched and nothing is replayed. -/
theorem C3_misuse_on_mismatch (kh K : String) (s : Store)
    (req : IdempotencyRequest) (r : IdempotencyResource)
    (resp : IdempotencyResponse) (c : Nat)
    (hk : extractIdempotencyKeyFromReq kh req = some K)
    (hf : findByIdempotencyKey s K = some r)
    (hr : r.response = some resp)
    (hc : resp.statusCode = some c)
    (hm : r.request.method ≠ req.method ∨ r.request.url ≠ req.url) :
    (provideMiddlewareFunction kh s req).outcome = Outcome.misuse ∧
    (provideMiddlewareFunction kh s req).nextError =
      some misuseErrorMessage ∧
    misuseErrorMessage ≠ conflictErrorMessage ∧
    (provideMiddlewareFunction kh s req).store = s ∧
    (provideMiddlewareFunction kh s req).hit = false := by
  have hcond : (r.request.method == req.method &&
      r.request.url == req.url) = false := by
    rcases hm with hm | hm <;> simp [hm]
  have hres : provideMiddlewareFunction kh s req =
      ⟨Outcome.misuse, s, false, some misuseErrorMessage⟩ := by
    simp [provideMiddlewareFunction, hk, hf, shouldProcess, hr, hc, hcond]
  rw [hres]
  exact ⟨rfl, rfl, by decide, rfl, rfl⟩

/-- C3 witness: k1 Completed for one url, retried with another url. -/
theorem C3_misuse_on_mismatch_witness :
    (provideMiddlewareFunction "idempotency-key"
        [("k1", sampleCompleted)] mismatchReq).outcome = Outcome.misuse ∧
    (provideMiddlewareFunction "idempotency-key"
        [("k1", sampleCompleted)] mismatchReq).nextError =
      some misuseErrorMessage ∧
    misuseErrorMessage ≠ conflictErrorMessage ∧
    (provideMiddlewareFunction "idempotency-key"
        [("k1", sampleCompleted)] mismatchReq).store =
      [("k1", sampleCompleted)] ∧
    (provideMiddlewareFunction "idempotency-key"
        [("k1", sampleCompleted)] mismatchReq).hit = false :=
  C3_misuse_on_mismatch "idempotency-key" "k1" [("k1", sampleCompleted)]
    mismatchReq sampleCompleted
    ⟨some 200, [], "ok"⟩ 200
    (by decide) (by decide) (by decide) (by decide)
    (Or.inr (by decide))

theorem sensitive_false_iff (n : String) :
    isSensitiveRequestHeader n = false ↔
      sensitiveExactHeaders.contains (lowerName n) = false ∧
      sensitiveHeaderStarts.all
        (fun q => !(nameStartsWith (lowerName n) q)) = true := by
  simp [isSensitiveRequestHeader, List.all_eq_true, List.any_eq_true]

theorem miss_creates_snapshot (kh K : String) (s : Store)
    (req : IdempotencyRequest)
    (hk : extractIdempotencyKeyFromReq kh req = some K)
    (hmiss : findByIdempotencyKey s K = none) :
    (provideMiddlewareFunction kh s req).store =
      (K, pendingResource K req) :: s := by
  simp [provideMiddlewareFunction, hk, shouldProcess, hmiss, create,
    pendingResource]

/-- C6: the snapshot persisted on a cache miss carries no sensitive
header — none from the exact denylist and none whose lowercased name
starts with a denylisted start — while every other header of the
request is kept with its exact value. -/
theorem C6_snapshot_redaction (kh K : String) (s : Store)
    (req : IdempotencyRequest)
    (hk : extractIdempotencyKeyFromReq kh req = some K)
    (hmiss : findByIdempotencyKey s K = none) :
    ∃ st, findByIdempotencyKey
        (provideMiddlewareFunction kh s req).store K = some st ∧
      (∀ p ∈ st.request.headers,
        sensitiveExactHeaders.contains (lowerName p.1) = false ∧
        sensitiveHeaderStarts.all
          (fun q => !(nameStartsWith (lowerName p.1) q)) = true) ∧
      (∀ p ∈ req.headers,
        sensitiveExactHeaders.contains (lowerName p.1) = false →
        sensitiveHeaderStarts.all
          (fun q => !(nameStartsWith (lowerName p.1) q)) = true →
        p ∈ st.request.headers) := by
  refine ⟨pendingResource K req, ?_, ?_, ?_⟩
  · rw [miss_creates_snapshot kh K s req hk hmiss]
    exact find_cons_self s K _
  · intro p hp
    simp only [pendingResource, requestSnapshot, filterSensitiveHeaders]
      at hp
    rcases List.mem_filter.mp hp with ⟨_, hkeep⟩
    have hsens : isSensitiveRequestHeader p.1 = false := by
      simpa using hkeep
    exact (sensitive_false_iff p.1).mp hsens
  · intro p hp hc1 hc2
    have hsens : isSensitiveRequestHeader p.1 = false :=
      (sensitive_false_iff p.1).mpr ⟨hc1, hc2⟩
    simp only [pendingResource, requestSnapshot, filterSensitiveHeaders]
    exact List.mem_filter.mpr ⟨hp, by simp [hsens]⟩

/-- C6 witness: a miss with sensitive and ordinary headers mixed. -/
theorem C6_snapshot_redaction_witness :
    ∃ st, findByIdempotencyKey
        (provideMiddlewareFunction "idempotency-key" [] sensReq).store
        "k1" = some st ∧
      (∀ p ∈ st.request.headers,
        sensitiveExactHeaders.contains (lowerName p.1) = false ∧
        sensitiveHeaderStarts.all
          (fun q => !(nameStartsWith (lowerName p.1) q)) = true) ∧
      (∀ p ∈ sensReq.headers,
        sensitiveExactHeaders.contains (lowerName p.1) = false →
        sensitiveHeaderStarts.all
          (fun q => !(nameStartsWith (lowerName p.1) q)) = true →
        p ∈ st.request.headers) :=
  C6_snapshot_redaction "idempotency-key" "k1" [] sensReq
    (by decide) rfl

theorem requestSnapshot_method (req : IdempotencyRequest) :
    (requestSnapshot req).method = req.method := rfl

theorem requestSnapshot_url (req : IdempotencyRequest) :
    (requestSnapshot req).url = req.url := rfl

theorem filterResponseHeaders_idem (hs : List (String × String)) :
    filterResponseHeaders (filterResponseHeaders hs) =
      filterResponseHeaders hs := by
  simp [filterResponseHeaders, List.filter_filter]

/-- C1: after a miss whose response is captured with a validated status,
a retry with the same key, method and url is a hit replaying exactly the
captured status, whitelisted headers and body, with no error handed to
the continuation, the hit flag set, and the store untouched. -/
theorem C1_completed_replay (kh K : String) (s : Store)
    (req req2 : IdempotencyRequest) (c : Nat)
    (hs : List (String × String)) (b : String)
    (hk : extractIdempotencyKeyFromReq kh req = some K)
    (hk2 : extractIdempotencyKeyFromReq kh req2 = some K)
    (hm : req2.method = req.method) (hu : req2.url = req.url)
    (hmiss : findByIdempotencyKey s K = none)
    (hvalid : isValidForPersistence c = true) :
    provideMiddlewareFunction kh
        (hookCapture (provideMiddlewareFunction kh s req).store
          (pendingResource K req) c hs b) req2 =
      ⟨Outcome.hit ⟨some c, filterResponseHeaders hs, b⟩,
        hookCapture (provideMiddlewareFunction kh s req).store
          (pendingResource K req) c hs b,
        true, none⟩ := by
  rw [miss_creates_snapshot kh K s req hk hmiss]
  have hcap : hookCapture ((K, pendingResource K req) :: s)
        (pendingResource K req) c hs b =
      update ((K, pendingResource K req) :: s)
        (⟨K, requestSnapshot req,
          some ⟨some c, filterResponseHeaders hs, b⟩⟩ :
          IdempotencyResource) := by
    simp [hookCapture, hvalid, pendingResource]
  rw [hcap]
  have hfind : findByIdempotencyKey
      (update ((K, pendingResource K req) :: s)
        (⟨K, requestSnapshot req,
          some ⟨some c, filterResponseHeaders hs, b⟩⟩ :
          IdempotencyResource)) K =
      some (⟨K, requestSnapshot req,
        some ⟨some c, filterResponseHeaders hs, b⟩⟩ :
        IdempotencyResource) :=
    find_update_self _ _
  simp [provideMiddlewareFunction, hk2, shouldProcess, hfind,
    requestSnapshot_method, requestSnapshot_url, hm, hu,
    filterResponseHeaders_idem]

/-- C1 witness: capture a 200 response for k1 and replay it. -/
theorem C1_completed_replay_witness :
    provideMiddlewareFunction "idempotency-key"
        (hookCapture (provideMiddlewareFunction "idempotency-key" []
            sampleReq).store
          (pendingResource "k1" sampleReq) 200
          [("content-type", "application/json"), ("server", "x")] "ok")
        sampleReq =
      ⟨Outcome.hit ⟨some 200, filterResponseHeaders
          [("content-type", "application/json"), ("server", "x")], "ok"⟩,
        hookCapture (provideMiddlewareFunction "idempotency-key" []
            sampleReq).store
          (pendingResource "k1" sampleReq) 200
          [("content-type", "application/json"), ("server", "x")] "ok",
        true, none⟩ :=
  C1_completed_replay "idempotency-key" "k1" [] sampleReq sampleReq 200
    [("content-type", "application/json"), ("server", "x")] "ok"
    (by decide) (by decide) rfl rfl rfl (by decide)

end ExpressIdempotency
